import Mathlib

/-!
Verification of the bm-lrs linear referencing service against its
specification.  The Go source is shallowly embedded: relational SQL
pipelines become list-processing functions, table rows become structures,
and the spatial SQL engine (DuckDB's spatial extension), which the spec
treats as a black-box capability, is a parameter record of abstract
geometric primitives.  Machine floating point is modelled by `ℚ`.
-/

namespace BmLrs

/-- A geometry point as the engine sees it.  Every call site in the source
builds points as `ST_Point(lat, lon)` (the latitude is passed as the first,
`x`, argument), so throughout the pipeline `x` carries latitude and `y`
carries longitude. -/
structure GPt where
  x : ℚ
  y : ℚ
deriving DecidableEq

/-- `ST_Point(lat, lon)` as used by `LinestringQuery`, the events query and
the segment-distance expressions in `CalculatePointsMValue`. -/
def mkPoint (lat lon : ℚ) : GPt :=
  ⟨lat, lon⟩

/-- The spatial primitives of the embedded SQL engine, which the spec
declares out of scope ("treated as a black-box capability"): Euclidean
distance `ST_Distance`, and the endpoint and length of
`ST_ShortestLine(point, linestring)`.  Theorems quantify over the engine;
witnesses instantiate it concretely. -/
structure SpatialEngine where
  stDistance : GPt → GPt → ℚ
  stShortestEnd : GPt → List GPt → GPt
  stShortestLen : GPt → List GPt → ℚ

/-- A row of the input events table (`points_raw_view`): the required
`ROUTEID`, `LAT`, `LON` columns plus arbitrary passthrough columns. -/
structure EventRow where
  routeid : String
  lat : ℚ
  lon : ℚ
  attrs : List (String × ℚ)
deriving DecidableEq

/-- A row of `lrs_line_table` (from `LinestringQuery`): `ROUTEID` and the
linestring built from the route's vertices ordered by `VERTEX_SEQ`. -/
structure LineRow where
  routeid : String
  line : List GPt
deriving DecidableEq

/-- A row of `lrs_segment_table` (from `SegmentQuery`): a vertex joined by
`LEAD` to the next vertex.  Fields `lat0, lon0, m0` are the columns
`LAT, LON, MVAL`, and `lat1, lon1, m1` the lead columns `LAT1, LON1, MVAL1`;
`seq` is `VERTEX_SEQ`.  The derived `mvgradient` and `c` columns are not
read by the interpolation query and are omitted. -/
structure SegmentRow where
  routeid : String
  lat0 : ℚ
  lon0 : ℚ
  m0 : ℚ
  lat1 : ℚ
  lon1 : ℚ
  m1 : ℚ
  seq : ℤ
deriving DecidableEq

/-- The join condition of the `nearest_vertex` CTE in
`CalculatePointsMValue`: the projected vertex `v` (`ST_EndPoint` of the
shortest line) joins segment `b` when
`ST_Y(v) <= GREATEST(b.LON, b.LON1) AND ST_Y(v) >= LEAST(b.LON, b.LON1)`,
`ST_X(v) <= GREATEST(b.LAT, b.LAT1) AND ST_X(v) >= LEAST(b.LAT, b.LAT1)`,
and the route ids agree. -/
def isCandidate (s : SegmentRow) (rid : String) (v : GPt) : Bool :=
  decide (v.y ≤ max s.lon0 s.lon1) && decide (min s.lon0 s.lon1 ≤ v.y) &&
    decide (v.x ≤ max s.lat0 s.lat1) && decide (min s.lat0 s.lat1 ≤ v.x) &&
    (s.routeid == rid)

/-- The `m_val` expression of the `interpolated` CTE:
`((mval_end - mval_start) / NULLIF(ST_Distance(start, end), 0)
   * ST_Distance(start, on_line)) + mval_start`,
with SQL `NULL` propagation rendered as `Option`: a zero denominator makes
`NULLIF` return `NULL` and the whole expression `NULL`. -/
def sqlInterp (eng : SpatialEngine) (s : SegmentRow) (onLine : GPt) : Option ℚ :=
  let dSeg := eng.stDistance (mkPoint s.lat0 s.lon0) (mkPoint s.lat1 s.lon1)
  if dSeg = 0 then none
  else some ((s.m1 - s.m0) / dSeg * eng.stDistance (mkPoint s.lat0 s.lon0) onLine + s.m0)

/-- `points_table`: the input events with `row_number() OVER ()` assigned in
arrival order as `point_id` (numbered from 1). -/
def pointsTable (events : List EventRow) : List (ℕ × EventRow) :=
  List.enumFrom 1 events

/-- A row of the `interpolated` CTE: `point_id`, `dist_to_line` (aliased
`dist`) and the possibly-`NULL` interpolated `m_val`.  The segment's
`VERTEX_SEQ` is not part of this relation. -/
structure InterpRow where
  pid : ℕ
  dist : ℚ
  mval : Option ℚ
deriving DecidableEq

/-- The CTE chain `shortest_to_lrs → point_on_line → nearest_vertex →
interpolated`: each event joins its route's linestring, the shortest line's
endpoint and length give the projected vertex and `dist_to_line`, candidate
segments are selected by `isCandidate`, and each candidate yields an
interpolated row. -/
def interpolated (eng : SpatialEngine) (lines : List LineRow) (segs : List SegmentRow)
    (events : List EventRow) : List InterpRow :=
  (pointsTable events).flatMap fun pe =>
    (lines.filter fun lr => lr.routeid == pe.2.routeid).flatMap fun lr =>
      let v := eng.stShortestEnd (mkPoint pe.2.lat pe.2.lon) lr.line
      let d := eng.stShortestLen (mkPoint pe.2.lat pe.2.lon) lr.line
      (segs.filter fun s => isCandidate s pe.2.routeid v).map fun s =>
        ⟨pe.1, d, sqlInterp eng s v⟩

/-- Left fold keeping the earliest row of strictly smallest `dist`. -/
def minDistFold (h : InterpRow) (t : List InterpRow) : InterpRow :=
  t.foldl (fun acc r => if r.dist < acc.dist then r else acc) h

/-- `best_interpolated`, i.e. `SELECT DISTINCT ON (point_id) * FROM
interpolated ORDER BY point_id, dist ASC`: for a `point_id`, the first row
of minimal `dist` in the order the engine presents the rows.  The
presentation order of `rows` is not fixed by the query, so `bestOn` is
stated over an arbitrary presentation. -/
def bestOn (rows : List InterpRow) (pid : ℕ) : Option InterpRow :=
  match rows.filter (fun r => r.pid == pid) with
  | [] => none
  | h :: t => some (minDistFold h t)

/-- A row of the query result: the input event columns (minus the synthetic
`point_id`) with the appended `MVAL` (`COALESCE(i.m_val, 0)`) and
`dist_to_line` columns. -/
structure ResultRow where
  event : EventRow
  mValue : ℚ
  distToLine : Option ℚ
deriving DecidableEq

/-- The final `SELECT` of `CalculatePointsMValue`: `points_table` left-joined
to `best_interpolated` on `point_id`, ordered by `point_id`, with
`COALESCE(i.m_val, 0)` as the m-value column, parameterised by the row
presentation order of the `interpolated` relation. -/
def calcWithRows (rows : List InterpRow) (events : List EventRow) : List ResultRow :=
  (pointsTable events).map fun pe =>
    { event := pe.2
      mValue := ((bestOn rows pe.1).bind InterpRow.mval).getD 0
      distToLine := (bestOn rows pe.1).map InterpRow.dist }

/-- `CalculatePointsMValue` end to end with the canonical presentation order
of the interpolated rows. -/
def calculatePointsMValue (eng : SpatialEngine) (lines : List LineRow)
    (segs : List SegmentRow) (events : List EventRow) : List ResultRow :=
  calcWithRows (interpolated eng lines segs events) events

/-- The route data the interpolation engine can be run against: the route's
rows of `lrs_line_table` and `lrs_segment_table`. -/
structure RouteData where
  routeid : String
  lines : List LineRow
  segs : List SegmentRow
deriving DecidableEq

/-- The line table contributed by a `RouteBatch` covering every added
route. -/
def batchLines (routes : List RouteData) : List LineRow :=
  routes.flatMap RouteData.lines

/-- The segment table contributed by a `RouteBatch` covering every added
route. -/
def batchSegs (routes : List RouteData) : List SegmentRow :=
  routes.flatMap RouteData.segs

/-- What `handleCalculateMValue` actually executes: the engine is invoked as
`mvalue.CalculatePointsMValue(ctx, lrs, *events)` with the single route
variable from the loading loop, not the assembled `routeBatch`. -/
def handlerResultSingle (eng : SpatialEngine) (r : RouteData)
    (events : List EventRow) : List ResultRow :=
  calculatePointsMValue eng r.lines r.segs events

/-- What the spec's step 5 prescribes for `handleCalculateMValue`: run the
interpolation engine against the assembled `RouteBatch` covering every
loaded route. -/
def handlerResultBatch (eng : SpatialEngine) (routes : List RouteData)
    (events : List EventRow) : List ResultRow :=
  calculatePointsMValue eng (batchLines routes) (batchSegs routes) events

/-- A row of the point file: `{route_id, lat, lon, m, seq}`. -/
structure PointRow where
  routeid : String
  lat : ℚ
  lon : ℚ
  m : ℚ
  seq : ℤ
deriving DecidableEq

/-- The merge query of `mergeWithExisting`:
`SELECT * FROM prev WHERE ROUTEID NOT IN (SELECT DISTINCT(ROUTEID) FROM
incoming) UNION ALL SELECT * FROM incoming`. -/
def mergePoints (prev incoming : List PointRow) : List PointRow :=
  prev.filter (fun r => decide (r.routeid ∉ incoming.map PointRow.routeid)) ++ incoming

/-- The point file holds at most one row per `(route_id, seq)` key. -/
def keyNodup (l : List PointRow) : Prop :=
  (l.map fun r => (r.routeid, r.seq)).Nodup

/-- A row of the `lrs_catalogs` table (dates as abstract day numbers;
`endDate = none` renders `END_DATE IS NULL`, the active marker). -/
structure CatalogRow where
  version : ℤ
  startDate : ℕ
  endDate : Option ℕ
  pointFile : String
  segmentFile : String
  linestrFile : String
  author : String
  commitMsg : String
deriving DecidableEq

/-- `UPDATE lrs_catalogs SET END_DATE = CURRENT_DATE WHERE END_DATE IS
NULL`. -/
def closeActive (today : ℕ) (cat : List CatalogRow) : List CatalogRow :=
  cat.map fun r => if r.endDate = none then { r with endDate := some today } else r

/-- `SELECT COALESCE(MAX(VERSION), 0) + 1 FROM lrs_catalogs`. -/
def nextVersion (cat : List CatalogRow) : ℤ :=
  (cat.map CatalogRow.version).foldl max 0 + 1

/-- The committed effect of the catalog transaction in `mergeWithExisting`:
close the active rows, then insert exactly one new row with
`END_DATE = NULL`. -/
def commitStep (cat : List CatalogRow) (today : ℕ)
    (pf sf lf author msg : String) : List CatalogRow :=
  closeActive today cat ++
    [{ version := nextVersion cat, startDate := today, endDate := none,
       pointFile := pf, segmentFile := sf, linestrFile := lf,
       author := author, commitMsg := msg }]

/-- Catalog states reachable from the empty catalog by committed syncs. -/
inductive ReachableCatalog : List CatalogRow → Prop
  | empty : ReachableCatalog []
  | sync (cat : List CatalogRow) (today : ℕ) (pf sf lf author msg : String) :
      ReachableCatalog cat → ReachableCatalog (commitStep cat today pf sf lf author msg)

/-- `count(catalog WHERE end_date IS NULL)`. -/
def activeCount (cat : List CatalogRow) : ℕ :=
  (cat.filter fun r => r.endDate.isNone).length

/-- A row of a geometry object handed to `projection.Transform`, carrying
the `LAT` and `LONG` coordinate columns the query hardcodes and the
remaining columns, which the query passes through unchanged. -/
structure GeomRow where
  lat : ℚ
  long : ℚ
  attrs : List (String × ℚ)
deriving DecidableEq

/-- A geometry object: a declared CRS and rows. -/
structure GeomObj where
  crs : String
  rows : List GeomRow
deriving DecidableEq

/-- One row of `Transform`'s query, parameterised by the engine's
`ST_Transform` (source CRS, target CRS, point).  Non-inverted the shape is
`ST_Transform(ST_Point(LAT, LONG), src, tgt)`; inverted the arguments swap
to `ST_Point(LONG, LAT)`.  The output row reads the shape back as
`ST_X(shape) AS LONG, ST_Y(shape) AS LAT`. -/
def transformRow (stT : String → String → GPt → GPt) (src tgt : String)
    (inverted : Bool) (r : GeomRow) : GeomRow :=
  let shape := if inverted then stT src tgt ⟨r.long, r.lat⟩ else stT src tgt ⟨r.lat, r.long⟩
  { lat := shape.y, long := shape.x, attrs := r.attrs }

/-- The row set of `Transform`'s SQL query: every input row transformed. -/
def transformQuery (stT : String → String → GPt → GPt) (src tgt : String)
    (inverted : Bool) (rows : List GeomRow) : List GeomRow :=
  rows.map (transformRow stT src tgt inverted)

/-- `projection.Transform`: runs the transform query unconditionally (there
is no check that the source and target CRS strings are equal) and reads the
result through the Arrow record reader, which partitions the result rows
into record batches of engine-chosen sizes (`batchSizes`, the row count of
each successive batch).  The Go loop `for out_reader.Next()` returns inside
its first iteration, so only the first record batch is kept in the returned
object; when the reader yields no batch the loop ends and the function
returns `nil, nil` (`none`). -/
def transform (stT : String → String → GPt → GPt) (obj : GeomObj)
    (tgt : String) (inverted : Bool) (batchSizes : List ℕ) : Option GeomObj :=
  match batchSizes with
  | [] => none
  | n :: _ => some ⟨tgt, (transformQuery stT obj.crs tgt inverted obj.rows).take n⟩

/-- The engine transform most favorable to the no-op claim: the identity on
every point (in particular the identity when source and target CRS are
equal). -/
def idStT : String → String → GPt → GPt :=
  fun _ _ p => p

/-- Association-list lookup rendering Go's `map[string]T` access: the value
of the first pair whose key matches. -/
def assoc {α : Type} : List (String × α) → String → Option α
  | [], _ => none
  | p :: t, k => if k = p.1 then some p.2 else assoc t k

/-- A JSON property value as `encoding/json` decodes into `map[string]any`:
a number, a string or a boolean (JSON numbers always decode to `float64`).
Explicit nulls and absent keys are both rendered as the key being absent
from `props`. -/
inductive GoVal where
  | num (q : ℚ)
  | str (s : String)
  | bool (b : Bool)
deriving DecidableEq

/-- The Arrow column types `NewLRSEventsFromGeoJSON` infers. -/
inductive GoTy where
  | float
  | strTy
  | boolTy
deriving DecidableEq

/-- The column type inferred from one value. -/
def tyOf : GoVal → GoTy
  | .num _ => .float
  | .str _ => .strTy
  | .bool _ => .boolTy

/-- `fmt.Sprint` as applied by the string-column branch. -/
def goSprint : GoVal → String
  | .num q => toString q.num ++ "/" ++ toString q.den
  | .str s => s
  | .bool b => if b then "true" else "false"

/-- A GeoJSON point feature: the geometry's coordinate array and the
properties map (keys assumed distinct, values non-null). -/
structure Feature where
  coords : List ℚ
  props : List (String × GoVal)
deriving DecidableEq

/-- The property keys of the collection, i.e. the schema columns after `LAT`
and `LON`. -/
def propKeys (fc : List Feature) : List String :=
  (fc.flatMap fun f => f.props.map Prod.fst).dedup

/-- Column-type inference of `NewLRSEventsFromGeoJSON`: the type of the
first non-null value of the key in feature order, defaulting to string. -/
def inferTy (fc : List Feature) (k : String) : GoTy :=
  match fc.findSome? (fun f => (assoc f.props k).map tyOf) with
  | some t => t
  | none => .strTy

/-- Appending one value to a column of the inferred type: float and boolean
builders panic (`none`) on a type-assertion mismatch, while the string
builder stringifies any value via `fmt.Sprint`. -/
def appendCell (t : GoTy) (v : GoVal) : Option GoVal :=
  match t, v with
  | .float, .num q => some (.num q)
  | .float, _ => none
  | .strTy, v => some (.str (goSprint v))
  | .boolTy, .bool b => some (.bool b)
  | .boolTy, _ => none

/-- The cell stored for feature `f` at column `k`: `AppendNull` when the
property is missing or null, otherwise the typed append.  The outer
`Option` is failure (a Go panic), the inner one the Arrow null. -/
def cellOf (t : GoTy) (f : Feature) (k : String) : Option (Option GoVal) :=
  match assoc f.props k with
  | none => some none
  | some v => (appendCell t v).map some

/-- A decoded event row: the `LAT` and `LON` columns plus one cell per
property column.  (Properties named `LAT` or `LON` would alias the
coordinate columns in the real schema; they are excluded by hypothesis in
the round-trip theorem.) -/
structure DecRow where
  lat : ℚ
  lon : ℚ
  cells : List (String × Option GoVal)
deriving DecidableEq

/-- Decoding one feature: `lon := coordinates[0]`, `lat := coordinates[1]`
(panicking, i.e. `none`, when fewer than two coordinates are present), then
one cell per schema key. -/
def decodeRow (fc : List Feature) (keys : List String) (f : Feature) : Option DecRow :=
  match f.coords with
  | lon :: lat :: _ =>
    (keys.mapM fun k => (cellOf (inferTy fc k) f k).map fun c => (k, c)).map
      fun cells => ⟨lat, lon, cells⟩
  | _ => none

/-- `NewLRSEventsFromGeoJSON` followed by `NewLRSEvents` validation: decode
every feature, then require the `ROUTEID` column (the `LAT` and `LON`
columns always exist) — otherwise the constructor errors. -/
def decodeFC (fc : List Feature) : Option (List DecRow) :=
  if "ROUTEID" ∈ propKeys fc then fc.mapM (decodeRow fc (propKeys fc))
  else none

/-- `ToGeoJSON` on one row: geometry `Point` with coordinates `[lon, lat]`
(lon first), and every non-`LAT`/`LON` column with a non-null cell becoming
a property. -/
def serializeRow (r : DecRow) : Feature :=
  { coords := [r.lon, r.lat]
    props := r.cells.filterMap fun kc => kc.2.map fun v => (kc.1, v) }

/-- `ToGeoJSON` over all rows, in row order. -/
def serializeEvents (rows : List DecRow) : List Feature :=
  rows.map serializeRow

/-- The decoded row the pipeline produces for feature `f`: latitude from
`coordinates[1]`, longitude from `coordinates[0]`, and one cell per schema
key holding the feature's property value (or null). -/
def decRowOf (fc : List Feature) (f : Feature) : DecRow :=
  ⟨f.coords.getD 1 0, f.coords.getD 0 0, (propKeys fc).map fun k => (k, assoc f.props k)⟩

/-- A concrete feature collection for the round-trip witness. -/
def witFC : List Feature :=
  [⟨[7, 8], [("ROUTEID", .str "R1"), ("X", .num 3)]⟩]

/-- The required event columns checked by `NewLRSEvents`. -/
def requiredCols : List String :=
  ["ROUTEID", "LAT", "LON"]

/-- `NewLRSEvents` over the batch schemas (each batch abstracted to its
field-name list): an empty batch list is accepted, otherwise the required
columns are looked up in the first batch's schema only. -/
def newLRSEvents (batches : List (List String)) : Option (List (List String)) :=
  match batches with
  | [] => some []
  | s :: rest => if requiredCols.all (fun c => decide (c ∈ s)) then some (s :: rest) else none

/-- A concrete spatial engine for witnesses: squared Euclidean distance,
projection of a point to itself, zero shortest-line length. -/
def taxiEngine : SpatialEngine :=
  { stDistance := fun p q => (p.x - q.x) * (p.x - q.x) + (p.y - q.y) * (p.y - q.y)
    stShortestEnd := fun p _ => p
    stShortestLen := fun _ _ => 0 }

/-- A concrete event for witnesses. -/
def witEvent : EventRow :=
  { routeid := "R1", lat := 1, lon := 0, attrs := [] }

/-- A concrete prior point file for the merge witness: routes `A` and `B`. -/
def witPrev : List PointRow :=
  [⟨"A", 0, 0, 0, 0⟩, ⟨"B", 3, 4, 5, 0⟩]

/-- A concrete incoming point set colliding with route `A`. -/
def witInc : List PointRow :=
  [⟨"A", 1, 1, 9, 0⟩]

/-- Concrete interpolated rows for the minimal-distance witness. -/
def witRows : List InterpRow :=
  [⟨1, 2, some 5⟩, ⟨1, 1, some 7⟩]

/-- Counterexample input for the tie-breaking claim: one event sitting
exactly on the junction vertex of two consecutive segments of route `R`. -/
def c6Events : List EventRow :=
  [⟨"R", 1, 0, []⟩]

/-- The single linestring row of route `R` (its geometry is irrelevant to
the taxicab witness engine). -/
def c6Lines : List LineRow :=
  [⟨"R", []⟩]

/-- Segment `seq 0` of route `R`: latitudes 0 to 1, measures 0 to 10. -/
def c6SegA : SegmentRow :=
  ⟨"R", 0, 0, 0, 1, 0, 10, 0⟩

/-- Segment `seq 1` of route `R`: latitudes 1 to 2, measures 50 to 99 (the
measure jump makes the two candidate interpolations differ). -/
def c6SegB : SegmentRow :=
  ⟨"R", 1, 0, 50, 2, 0, 99, 1⟩

/-- The segment table of route `R`. -/
def c6Segs : List SegmentRow :=
  [c6SegA, c6SegB]

/-- The same interpolated rows in the opposite presentation order. -/
def c6Swapped : List InterpRow :=
  [⟨1, 0, some 50⟩, ⟨1, 0, some 10⟩]

/-- Route `R1` for the handler evaluation: one segment, measures 0 to 10. -/
def c5r1 : RouteData :=
  ⟨"R1", [⟨"R1", []⟩], [⟨"R1", 0, 0, 0, 1, 0, 10, 0⟩]⟩

/-- Route `R2` for the handler evaluation: one segment, measures 0 to 20. -/
def c5r2 : RouteData :=
  ⟨"R2", [⟨"R2", []⟩], [⟨"R2", 0, 0, 0, 1, 0, 20, 0⟩]⟩

/-- Two events, one on each of the two loaded routes. -/
def c5Events : List EventRow :=
  [⟨"R1", 1, 0, []⟩, ⟨"R2", 1, 0, []⟩]

/-- A concrete geometry object whose declared CRS equals the transform
target. -/
def c8Obj : GeomObj :=
  ⟨"EPSG:4326", [⟨1, 2, []⟩]⟩

theorem map_snd_enumFrom {α : Type} (n : ℕ) (l : List α) :
    (List.enumFrom n l).map Prod.snd = l := by
  induction l generalizing n with
  | nil => rfl
  | cons a t ih => simp [List.enumFrom, ih]

theorem closeActive_active_filter (today : ℕ) (cat : List CatalogRow) :
    (closeActive today cat).filter (fun r => r.endDate.isNone) = [] := by
  rw [List.filter_eq_nil_iff]
  intro r hr
  simp only [closeActive, List.mem_map] at hr
  obtain ⟨a, _, rfl⟩ := hr
  by_cases h : a.endDate = none <;> simp [h]

theorem activeCount_commitStep (cat : List CatalogRow) (today : ℕ)
    (pf sf lf author msg : String) :
    activeCount (commitStep cat today pf sf lf author msg) = 1 := by
  simp [activeCount, commitStep, List.filter_append, closeActive_active_filter]

/-- Claim C1: the `interpolated` CTE computes
`m_val = m0 + (m1 - m0) * (distance(endpoint0, projected) / distance(endpoint0, endpoint1))`,
and when the segment endpoint distance is zero the value is null (`none`)
rather than an error or infinity. -/
theorem C1_interpolation_formula (eng : SpatialEngine) (s : SegmentRow) (v : GPt) :
    sqlInterp eng s v =
      if eng.stDistance (mkPoint s.lat0 s.lon0) (mkPoint s.lat1 s.lon1) = 0 then none
      else
        some (s.m0 +
          (s.m1 - s.m0) *
            (eng.stDistance (mkPoint s.lat0 s.lon0) v /
              eng.stDistance (mkPoint s.lat0 s.lon0) (mkPoint s.lat1 s.lon1))) := by
  unfold sqlInterp
  by_cases h : eng.stDistance (mkPoint s.lat0 s.lon0) (mkPoint s.lat1 s.lon1) = 0
  · simp [h]
  · simp only [if_neg h, Option.some.injEq]
    ring

/-- Claim C2: for every non-empty event set, `CalculatePointsMValue` returns
exactly one result row per input event row, the `i`-th result row carries the
`i`-th input event's columns (input order preserved), and the `m_value` and
`dist_to_line` columns are appended. -/
theorem C2_order_preservation (eng : SpatialEngine) (lines : List LineRow)
    (segs : List SegmentRow) (events : List EventRow) (hne : events ≠ []) :
    (calculatePointsMValue eng lines segs events).map ResultRow.event = events ∧
      (calculatePointsMValue eng lines segs events).length = events.length := by
  constructor
  · simp only [calculatePointsMValue, calcWithRows, pointsTable, List.map_map]
    exact map_snd_enumFrom 1 events
  · simp [calculatePointsMValue, calcWithRows, pointsTable]

theorem C2_order_preservation_witness :
    ([witEvent] : List EventRow) ≠ [] ∧
      (calculatePointsMValue taxiEngine [] [] [witEvent]).map ResultRow.event = [witEvent] :=
  ⟨by decide, (C2_order_preservation taxiEngine [] [] [witEvent] (by decide)).1⟩

/-- Claim C4: in every reachable catalog state at most one catalog entry has
`end_date = NULL`, and each sync's commit step (close all active rows, then
insert one new row with `end_date = NULL`) preserves this invariant. -/
theorem C4_catalog_active_uniqueness (cat : List CatalogRow) (h : ReachableCatalog cat) :
    activeCount cat ≤ 1 ∧
      ∀ today pf sf lf author msg,
        activeCount (commitStep cat today pf sf lf author msg) ≤ 1 := by
  refine ⟨?_, fun today pf sf lf author msg => le_of_eq (activeCount_commitStep ..)⟩
  induction h with
  | empty => simp [activeCount]
  | sync cat today pf sf lf author msg _ _ => exact le_of_eq (activeCount_commitStep ..)

theorem C4_catalog_active_uniqueness_witness :
    activeCount [] ≤ 1 ∧ activeCount (commitStep [] 0 "p" "s" "l" "a" "m") ≤ 1 :=
  ⟨(C4_catalog_active_uniqueness [] ReachableCatalog.empty).1,
    (C4_catalog_active_uniqueness [] ReachableCatalog.empty).2 0 "p" "s" "l" "a" "m"⟩

/-- Claim C7: a segment is a candidate for a projected vertex exactly when
the vertex lies in the segment's axis-aligned bounding box — its longitude
within `[min(lon0, lon1), max(lon0, lon1)]` and its latitude within
`[min(lat0, lat1), max(lat0, lat1)]` — restricted to segments of the same
route id.  (The code stores latitude in the geometry `x` slot and longitude
in `y`, so its `ST_X`-against-`LAT` / `ST_Y`-against-`LON` comparisons are
exactly this containment test.) -/
theorem C7_candidate_bbox (segs : List SegmentRow) (s : SegmentRow) (rid : String)
    (vlat vlon : ℚ) :
    s ∈ segs.filter (fun s => isCandidate s rid (mkPoint vlat vlon)) ↔
      s ∈ segs ∧
        ((min s.lon0 s.lon1 ≤ vlon ∧ vlon ≤ max s.lon0 s.lon1) ∧
          (min s.lat0 s.lat1 ≤ vlat ∧ vlat ≤ max s.lat0 s.lat1) ∧
          s.routeid = rid) := by
  simp only [List.mem_filter, isCandidate, mkPoint, Bool.and_eq_true, decide_eq_true_eq,
    beq_iff_eq]
  tauto

/-- Claim C10: `NewLRSEvents` validates the required columns against the
first record batch's schema only — it errors exactly when the batch list is
non-empty and the first schema lacks `ROUTEID`, `LAT` or `LON`; an empty
batch list is accepted, and batches after the first are never checked. -/
theorem C10_first_batch_validation (s : List String) (rest rest2 : List (List String)) :
    ((newLRSEvents (s :: rest)).isSome ↔ "ROUTEID" ∈ s ∧ "LAT" ∈ s ∧ "LON" ∈ s) ∧
      (newLRSEvents (s :: rest)).isSome = (newLRSEvents (s :: rest2)).isSome ∧
      newLRSEvents [] = some [] := by
  by_cases h1 : "ROUTEID" ∈ s <;> by_cases h2 : "LAT" ∈ s <;> by_cases h3 : "LON" ∈ s <;>
    simp [newLRSEvents, requiredCols, h1, h2, h3]

theorem minDistFold_mem (h : InterpRow) (t : List InterpRow) : minDistFold h t ∈ h :: t := by
  induction t generalizing h with
  | nil => simp [minDistFold]
  | cons a t ih =>
    have hstep : minDistFold h (a :: t) = minDistFold (if a.dist < h.dist then a else h) t := rfl
    rw [hstep]
    have h2 := ih (if a.dist < h.dist then a else h)
    rw [List.mem_cons] at h2
    rcases h2 with h2 | h2
    · rw [h2]
      split <;> simp [List.mem_cons]
    · simp [List.mem_cons, h2]

theorem minDistFold_le (h : InterpRow) (t : List InterpRow) :
    ∀ r ∈ h :: t, (minDistFold h t).dist ≤ r.dist := by
  induction t generalizing h with
  | nil =>
    intro r hr
    simp only [List.mem_cons, List.not_mem_nil, or_false] at hr
    simp [minDistFold, hr]
  | cons a t ih =>
    intro r hr
    have hstep : minDistFold h (a :: t) = minDistFold (if a.dist < h.dist then a else h) t := rfl
    rw [hstep]
    have hha : (if a.dist < h.dist then a else h).dist ≤ h.dist := by
      split
      · exact le_of_lt (by assumption)
      · exact le_refl _
    have haa : (if a.dist < h.dist then a else h).dist ≤ a.dist := by
      split
      · exact le_refl _
      · exact le_of_not_lt (by assumption)
    have hfold :
        (minDistFold (if a.dist < h.dist then a else h) t).dist ≤
          (if a.dist < h.dist then a else h).dist :=
      ih _ _ (List.mem_cons_self _ _)
    rcases List.mem_cons.mp hr with hh | hr2
    · rw [hh]
      exact le_trans hfold hha
    · rcases List.mem_cons.mp hr2 with hh | hr3
      · rw [hh]
        exact le_trans hfold haa
      · exact ih _ _ (List.mem_cons_of_mem _ hr3)

/-- Claim C3: the merged point file holds exactly one row per
`(route_id, seq)`; it contains a row exactly when the row is incoming or
belongs to a previously active route not in the incoming set (collisions
resolve to the incoming version), and the rows of untouched routes are
carried over unchanged, in order. -/
theorem C3_merge_correctness (prev incoming : List PointRow)
    (hp : keyNodup prev) (hi : keyNodup incoming) :
    keyNodup (mergePoints prev incoming) ∧
      (∀ r, r ∈ mergePoints prev incoming ↔
        r ∈ incoming ∨ (r ∈ prev ∧ r.routeid ∉ incoming.map PointRow.routeid)) ∧
      (mergePoints prev incoming).filter
          (fun r => decide (r.routeid ∉ incoming.map PointRow.routeid)) =
        prev.filter (fun r => decide (r.routeid ∉ incoming.map PointRow.routeid)) := by
  refine ⟨?_, ?_, ?_⟩
  · unfold keyNodup mergePoints
    rw [List.map_append, List.nodup_append]
    refine ⟨((List.filter_sublist prev).map _).nodup hp, hi, ?_⟩
    rintro k hk1 hk2
    obtain ⟨r, hr, rfl⟩ := List.mem_map.mp hk1
    obtain ⟨q, hq, hkey⟩ := List.mem_map.mp hk2
    have hr2 := List.mem_filter.mp hr
    have hrid : r.routeid ∉ incoming.map PointRow.routeid := of_decide_eq_true hr2.2
    have hqr : q.routeid = r.routeid := congrArg Prod.fst hkey
    exact hrid (hqr ▸ List.mem_map_of_mem PointRow.routeid hq)
  · intro r
    simp only [mergePoints, List.mem_append, List.mem_filter, decide_eq_true_eq]
    tauto
  · unfold mergePoints
    rw [List.filter_append]
    have h2 : incoming.filter
        (fun r => decide (r.routeid ∉ incoming.map PointRow.routeid)) = [] := by
      rw [List.filter_eq_nil_iff]
      intro r hr
      simp only [decide_eq_true_eq, not_not, Decidable.not_not]
      exact List.mem_map_of_mem PointRow.routeid hr
    rw [h2, List.append_nil, List.filter_filter]
    simp only [Bool.and_self]

theorem C3_merge_correctness_witness :
    keyNodup (mergePoints witPrev witInc) ∧
      (mergePoints witPrev witInc).filter
          (fun r => decide (r.routeid ∉ witInc.map PointRow.routeid)) =
        witPrev.filter (fun r => decide (r.routeid ∉ witInc.map PointRow.routeid)) :=
  ⟨(C3_merge_correctness witPrev witInc (by unfold keyNodup; decide)
      (by unfold keyNodup; decide)).1,
    (C3_merge_correctness witPrev witInc (by unfold keyNodup; decide)
      (by unfold keyNodup; decide)).2.2⟩

/-- Claim C5 (code bug evaluation): the handler loads both routes into the
`routeBatch` but invokes the engine with the single route variable `lrs`;
run on a single route, the event referencing the other route gets
`m_value = 0`, while the batch the spec prescribes yields the interpolated
values for both events. -/
theorem C5_single_route_not_batch :
    (handlerResultSingle taxiEngine c5r1 c5Events).map ResultRow.mValue = [10, 0] ∧
      (handlerResultSingle taxiEngine c5r2 c5Events).map ResultRow.mValue = [0, 20] ∧
      (handlerResultBatch taxiEngine [c5r1, c5r2] c5Events).map ResultRow.mValue = [10, 20] ∧
      handlerResultSingle taxiEngine c5r1 c5Events ≠
        handlerResultBatch taxiEngine [c5r1, c5r2] c5Events ∧
      handlerResultSingle taxiEngine c5r2 c5Events ≠
        handlerResultBatch taxiEngine [c5r1, c5r2] c5Events := by
  have h1 : handlerResultSingle taxiEngine c5r1 c5Events =
      [⟨⟨"R1", 1, 0, []⟩, 10, some 0⟩, ⟨⟨"R2", 1, 0, []⟩, 0, none⟩] := by
    norm_num [handlerResultSingle, calculatePointsMValue, calcWithRows, interpolated,
      pointsTable, List.enumFrom, bestOn, minDistFold, sqlInterp, isCandidate,
      taxiEngine, mkPoint, c5r1, c5Events, List.filter,
      show ((1:ℕ) == 2) = false from rfl, show ((2:ℕ) == 1) = false from rfl]
  have h2 : handlerResultSingle taxiEngine c5r2 c5Events =
      [⟨⟨"R1", 1, 0, []⟩, 0, none⟩, ⟨⟨"R2", 1, 0, []⟩, 20, some 0⟩] := by
    norm_num [handlerResultSingle, calculatePointsMValue, calcWithRows, interpolated,
      pointsTable, List.enumFrom, bestOn, minDistFold, sqlInterp, isCandidate,
      taxiEngine, mkPoint, c5r2, c5Events, List.filter,
      show ((1:ℕ) == 2) = false from rfl, show ((2:ℕ) == 1) = false from rfl]
  have h3 : handlerResultBatch taxiEngine [c5r1, c5r2] c5Events =
      [⟨⟨"R1", 1, 0, []⟩, 10, some 0⟩, ⟨⟨"R2", 1, 0, []⟩, 20, some 0⟩] := by
    norm_num [handlerResultBatch, batchLines, batchSegs, calculatePointsMValue,
      calcWithRows, interpolated, pointsTable, List.enumFrom, bestOn, minDistFold,
      sqlInterp, isCandidate, taxiEngine, mkPoint, c5r1, c5r2, c5Events, List.filter,
      show ((1:ℕ) == 2) = false from rfl, show ((2:ℕ) == 1) = false from rfl]
  rw [h1, h2, h3]
  refine ⟨by decide, by decide, by decide, by decide, by decide⟩

/-- Claim C6 counterexample: the claim asserts ties on `dist_to_line` are
broken deterministically by segment `seq`.  On an event at the junction
vertex of two segments, both candidate rows carry the same `dist`; the
`interpolated` relation retains no `seq` column and its presentation order
is not fixed by `ORDER BY point_id, dist ASC`, so the two presentation
orders of the same rows yield different results. -/
theorem C6_counterexample :
    interpolated taxiEngine c6Lines c6Segs c6Events =
        [⟨1, 0, some 10⟩, ⟨1, 0, some 50⟩] ∧
      (interpolated taxiEngine c6Lines c6Segs c6Events).Perm c6Swapped ∧
      calcWithRows c6Swapped c6Events ≠
        calcWithRows (interpolated taxiEngine c6Lines c6Segs c6Events) c6Events := by
  have hinterp : interpolated taxiEngine c6Lines c6Segs c6Events =
      [⟨1, 0, some 10⟩, ⟨1, 0, some 50⟩] := by
    norm_num [interpolated, pointsTable, List.enumFrom, sqlInterp, isCandidate,
      taxiEngine, mkPoint, c6Lines, c6Segs, c6SegA, c6SegB, c6Events, List.filter]
  have hswap : calcWithRows c6Swapped c6Events = [⟨⟨"R", 1, 0, []⟩, 50, some 0⟩] := by
    norm_num [calcWithRows, pointsTable, List.enumFrom, bestOn, minDistFold,
      c6Swapped, c6Events, List.filter]
  have hcanon : calcWithRows [⟨1, 0, some 10⟩, ⟨1, 0, some 50⟩] c6Events =
      [⟨⟨"R", 1, 0, []⟩, 10, some 0⟩] := by
    norm_num [calcWithRows, pointsTable, List.enumFrom, bestOn, minDistFold,
      c6Events, List.filter]
  refine ⟨hinterp, ?_, ?_⟩
  · rw [hinterp]
    exact List.Perm.swap _ _ _
  · rw [hinterp, hswap, hcanon]
    decide

/-- Claim C6 as amended: among a point's candidate rows the selected row has
minimal `dist_to_line`; equal-`dist` ties are resolved by the engine's row
presentation order, not by segment `seq`. -/
theorem C6_min_dist (rows : List InterpRow) (pid : ℕ) (r : InterpRow)
    (h : bestOn rows pid = some r) :
    r ∈ rows ∧ r.pid = pid ∧ ∀ r2 ∈ rows, r2.pid = pid → r.dist ≤ r2.dist := by
  unfold bestOn at h
  rcases hfil : rows.filter (fun r => r.pid == pid) with _ | ⟨hd, tl⟩
  · rw [hfil] at h
    cases h
  · rw [hfil] at h
    injection h with h
    subst h
    have hmem : minDistFold hd tl ∈ hd :: tl := minDistFold_mem hd tl
    rw [← hfil] at hmem
    have hmf := List.mem_filter.mp hmem
    refine ⟨hmf.1, by simpa using hmf.2, ?_⟩
    intro r2 h2 hpid
    have hr2 : r2 ∈ rows.filter (fun r => r.pid == pid) :=
      List.mem_filter.mpr ⟨h2, by simp [hpid]⟩
    rw [hfil] at hr2
    exact minDistFold_le hd tl _ hr2

theorem C6_min_dist_witness :
    bestOn witRows 1 = some ⟨1, 1, some 7⟩ ∧ (⟨1, 1, some 7⟩ : InterpRow) ∈ witRows :=
  ⟨by decide, (C6_min_dist witRows 1 ⟨1, 1, some 7⟩ (by decide)).1⟩

/-- Claim C8 counterexample: `Transform` contains no equal-CRS short
circuit.  Even with an engine transform that is the identity (`idStT`), a
transform whose target CRS equals the object's declared CRS does not return
the object: with the result delivered as one single-row record batch the
returned rows have latitude and longitude swapped (the query builds
`ST_Point(LAT, LONG)` but reads back `ST_X AS LONG, ST_Y AS LAT`), and with
no record batch the function returns `nil, nil` — in no case a no-op. -/
theorem C8_counterexample :
    transform idStT c8Obj "EPSG:4326" false [1] ≠ some c8Obj ∧
      transform idStT c8Obj "EPSG:4326" false [1] =
        some ⟨"EPSG:4326", [⟨2, 1, []⟩]⟩ ∧
      transform idStT c8Obj "EPSG:4326" true [] = none :=
  ⟨by decide, by decide, rfl⟩

/-- Claim C8 as amended: `Transform` performs no equal-CRS short circuit —
it always runs the transform query and keeps only the first record batch of
the result (`none` when the reader yields no batch).  Even when the target
CRS equals the object's CRS and the engine's point transform is the
identity there, the non-inverted call returns, for the rows it does return,
the corresponding input rows with their `lat` and `long` values exchanged,
so Transform is not a no-op. -/
theorem C8_no_noop (stT : String → String → GPt → GPt) (obj : GeomObj) (tgt : String)
    (hcrs : obj.crs = tgt) (hid : ∀ p, stT obj.crs tgt p = p) :
    transform stT obj tgt false [] = none ∧
      ∀ n rest, transform stT obj tgt false (n :: rest) =
        some ⟨tgt, (obj.rows.map fun r => ⟨r.long, r.lat, r.attrs⟩).take n⟩ := by
  refine ⟨rfl, fun n rest => ?_⟩
  have hq : transformQuery stT obj.crs tgt false obj.rows =
      obj.rows.map fun r => (⟨r.long, r.lat, r.attrs⟩ : GeomRow) :=
    List.map_congr_left (fun r _ => by simp [transformRow, hid])
  rw [transform, hq]

theorem C8_no_noop_witness :
    transform idStT c8Obj "EPSG:4326" false [1] =
      some ⟨"EPSG:4326", [⟨2, 1, []⟩]⟩ := by
  rw [(C8_no_noop idStT c8Obj "EPSG:4326" rfl (fun _ => rfl)).2 1 []]
  decide

theorem assoc_eq_none {α : Type} (ps : List (String × α)) (k : String)
    (h : k ∉ ps.map Prod.fst) : assoc ps k = none := by
  induction ps with
  | nil => rfl
  | cons p t ih =>
    simp only [List.map_cons, List.mem_cons, not_or] at h
    rw [assoc, if_neg h.1]
    exact ih h.2

theorem mem_of_assoc_eq_some {α : Type} {ps : List (String × α)} {k : String} {v : α}
    (h : assoc ps k = some v) : (k, v) ∈ ps := by
  induction ps with
  | nil => cases h
  | cons p t ih =>
    obtain ⟨a, b⟩ := p
    rw [assoc] at h
    by_cases hk : k = a
    · rw [if_pos hk] at h
      injection h with h
      subst hk
      subst h
      exact List.mem_cons_self _ _
    · rw [if_neg hk] at h
      exact List.mem_cons_of_mem _ (ih h)

theorem assoc_filterMap {α : Type} (g : String → Option α) (keys : List String)
    (hk : keys.Nodup) (k : String) :
    assoc (keys.filterMap fun k2 => (g k2).map fun v => (k2, v)) k =
      if k ∈ keys then g k else none := by
  induction keys with
  | nil => simp [assoc]
  | cons a t ih =>
    obtain ⟨ha, ht⟩ := List.nodup_cons.mp hk
    by_cases hka : k = a
    · subst hka
      cases hg : g k with
      | none =>
        simp only [List.filterMap_cons, hg, Option.map_none']
        rw [ih ht, hg]
        simp only [ite_self]
      | some v =>
        simp only [List.filterMap_cons, hg, Option.map_some']
        simp [assoc, hg]
    · cases hg : g a with
      | none =>
        simp only [List.filterMap_cons, hg, Option.map_none']
        rw [ih ht]
        by_cases hkt : k ∈ t
        · rw [if_pos hkt, if_pos (List.mem_cons_of_mem _ hkt)]
        · rw [if_neg hkt, if_neg (by simp [List.mem_cons, hka, hkt])]
      | some v =>
        simp only [List.filterMap_cons, hg, Option.map_some']
        simp only [assoc, if_neg hka]
        rw [ih ht]
        by_cases hkt : k ∈ t
        · rw [if_pos hkt, if_pos (List.mem_cons_of_mem _ hkt)]
        · rw [if_neg hkt, if_neg (by simp [List.mem_cons, hka, hkt])]

theorem mem_propKeys {fc : List Feature} {f : Feature} (hf : f ∈ fc) {k : String}
    (h : k ∈ f.props.map Prod.fst) : k ∈ propKeys fc := by
  unfold propKeys
  rw [List.mem_dedup]
  exact List.mem_flatMap.mpr ⟨f, hf, h⟩

theorem appendCell_tyOf (v : GoVal) : appendCell (tyOf v) v = some v := by
  cases v <;> rfl

theorem cellOf_eq (fc : List Feature) (f : Feature)
    (hf : ∀ kv ∈ f.props, tyOf kv.2 = inferTy fc kv.1) (k : String) :
    cellOf (inferTy fc k) f k = some (assoc f.props k) := by
  cases hl : assoc f.props k with
  | none => simp [cellOf, hl]
  | some v =>
    have h2 : tyOf v = inferTy fc k := hf (k, v) (mem_of_assoc_eq_some hl)
    simp [cellOf, hl, ← h2, appendCell_tyOf]

theorem mapM_cells (fc : List Feature) (f : Feature)
    (hf : ∀ kv ∈ f.props, tyOf kv.2 = inferTy fc kv.1) (keys : List String) :
    (keys.mapM fun k => (cellOf (inferTy fc k) f k).map fun c => (k, c)) =
      some (keys.map fun k => (k, assoc f.props k)) := by
  induction keys with
  | nil => rfl
  | cons k ks ih =>
    rw [List.mapM_cons, cellOf_eq fc f hf k, ih]
    rfl

theorem decodeRow_eq (fc : List Feature) (f : Feature)
    (hf : ∀ kv ∈ f.props, tyOf kv.2 = inferTy fc kv.1)
    (hc : f.coords.length = 2) :
    decodeRow fc (propKeys fc) f = some (decRowOf fc f) := by
  obtain ⟨a, b, hab⟩ := List.length_eq_two.mp hc
  simp only [decodeRow, hab]
  rw [mapM_cells fc f hf]
  simp [decRowOf, hab]

theorem decodeFC_eq (fc : List Feature)
    (hty : ∀ f ∈ fc, ∀ kv ∈ f.props, tyOf kv.2 = inferTy fc kv.1)
    (hcoords : ∀ f ∈ fc, f.coords.length = 2)
    (hroute : "ROUTEID" ∈ propKeys fc) :
    decodeFC fc = some (fc.map (decRowOf fc)) := by
  unfold decodeFC
  rw [if_pos hroute]
  suffices h : ∀ l : List Feature,
      (∀ f ∈ l, ∀ kv ∈ f.props, tyOf kv.2 = inferTy fc kv.1) →
      (∀ f ∈ l, f.coords.length = 2) →
      l.mapM (decodeRow fc (propKeys fc)) = some (l.map (decRowOf fc)) from
    h fc hty hcoords
  intro l hl1 hl2
  induction l with
  | nil => rfl
  | cons f t ih =>
    rw [List.mapM_cons,
      decodeRow_eq fc f (hl1 f (List.mem_cons_self _ _)) (hl2 f (List.mem_cons_self _ _)),
      ih (fun f2 hf2 => hl1 f2 (List.mem_cons_of_mem _ hf2))
        (fun f2 hf2 => hl2 f2 (List.mem_cons_of_mem _ hf2))]
    rfl

/-- Claim C9: decoding a valid point feature collection into events and
serializing back preserves every feature: the geometry is re-emitted with
coordinates in `[lon, lat]` order, and every non-geometry column becomes a
property again with the same value under every key, so the set of
`(route_id, lon, lat, other-properties)` tuples is preserved.  Validity
hypotheses: every property value's type matches the column type inferred
from its first non-null occurrence, each geometry carries exactly two
coordinates, some feature has a `ROUTEID` property (otherwise the events
constructor rejects the collection), and no property is named `LAT` or
`LON` (such a property would alias the coordinate columns, which the
embedding does not model). -/
theorem C9_roundtrip (fc : List Feature)
    (hty : ∀ f ∈ fc, ∀ kv ∈ f.props, tyOf kv.2 = inferTy fc kv.1)
    (hcoords : ∀ f ∈ fc, f.coords.length = 2)
    (hroute : "ROUTEID" ∈ propKeys fc)
    (hlat : "LAT" ∉ propKeys fc) (hlon : "LON" ∉ propKeys fc) :
    ∃ rows, decodeFC fc = some rows ∧
      List.Forall₂ (fun g f =>
        g.coords = [f.coords.getD 0 0, f.coords.getD 1 0] ∧
        ∀ k, assoc g.props k = assoc f.props k) (serializeEvents rows) fc := by
  refine ⟨fc.map (decRowOf fc), decodeFC_eq fc hty hcoords hroute, ?_⟩
  unfold serializeEvents
  rw [List.map_map, List.forall₂_map_left_iff, List.forall₂_same]
  intro f hf
  constructor
  · simp [serializeRow, decRowOf]
  · intro k
    simp only [Function.comp_apply]
    have hrw : (serializeRow (decRowOf fc f)).props =
        (propKeys fc).filterMap fun k2 => (assoc f.props k2).map fun v => (k2, v) := by
      show (((propKeys fc).map fun k2 => (k2, assoc f.props k2)).filterMap
          fun kc => kc.2.map fun v => (kc.1, v)) = _
      rw [List.filterMap_map]
      rfl
    have hnd : (propKeys fc).Nodup := by
      unfold propKeys
      exact List.nodup_dedup _
    rw [hrw, assoc_filterMap _ _ hnd k]
    by_cases hk : k ∈ propKeys fc
    · rw [if_pos hk]
    · rw [if_neg hk]
      have hnm : k ∉ f.props.map Prod.fst := fun hmem => hk (mem_propKeys hf hmem)
      exact (assoc_eq_none f.props k hnm).symm

theorem C9_roundtrip_witness :
    decodeFC witFC ≠ none ∧ "ROUTEID" ∈ propKeys witFC := by
  refine ⟨?_, by decide⟩
  obtain ⟨rows, hrows, _⟩ :=
    C9_roundtrip witFC (by decide) (by decide) (by decide) (by decide) (by decide)
  rw [hrows]
  exact Option.some_ne_none _

end BmLrs
